import Mathlib

/-!
Shallow embedding of the Superset front-end excerpt:
  * the `AsyncEsmComponent` deferred module loader (`AsyncEsmComponent.tsx`):
    `DefaultPlaceholder`, the memoized `waitForPromise`, and the rendered
    `AsyncComponent` with its `useState`/`useEffect` lifecycle, modelled as an
    explicit single-threaded event system (promise state + callback queue +
    rendered instances);
  * the dashboard persistence thunks (`dashboard/actions/dashboardInfo.ts`):
    `saveChartConfiguration`, `updateDashboardTheme`,
    `saveFilterBarOrientation`, `saveCrossFiltersSetting`, modelled as
    functions from the HTTP outcome to the trace of dispatched actions and
    the thunk result.
-/

namespace Spec2Proof

/-! ### DefaultPlaceholder (AsyncEsmComponent.tsx lines 33-50) -/

/-- What the default placeholder renders: nothing, or a sized `div` box that
optionally contains the `Loading` indicator.  `width`/`style` are forwarded
into the box verbatim. -/
inductive PlaceholderRender (S : Type) where
  | empty
  | box (width : Option Nat) (height : Nat) (showLoading : Bool) (style : Option S)
deriving DecidableEq

/-- `DefaultPlaceholder` from the source: `height && (<div …>…</div>) || null`.
A JS `height` of `undefined` is `none`; `height && …` is falsy for `0`, so the
box is rendered only for a present non-zero height, and the `Loading`
indicator is included exactly when `showLoadingForImport` is set. -/
def DefaultPlaceholder (S : Type) (width : Option Nat) (height : Option Nat)
    (showLoadingForImport : Bool) (style : Option S) : PlaceholderRender S :=
  match height with
  | some h => if h = 0 then .empty else .box width h showLoadingForImport style
  | none => .empty

/-! ### Module values and unwrapping (lines 85-90) -/

/-- The value an ES-module factory resolves to: either a record with a
(truthy) `default` field holding the component, or the component itself
(in which case `result.default` is `undefined`, hence falsy). -/
inductive ModuleValue (C : Type) where
  | withDefault (c : C)
  | direct (c : C)
deriving DecidableEq

/-- `result.default || result` from the completion callback: take the
`default` field when present, otherwise the module value itself. -/
def unwrapModule {C : Type} : ModuleValue C → C
  | .withDefault c => c
  | .direct c => c

/-! ### The render decision (lines 119-124) -/

/-- One render pass's output: an element (which component, which ref, which
props), or nothing. -/
inductive RenderOutput (C R P : Type) where
  | element (comp : C) (ref : Option R) (props : P)
  | empty
deriving DecidableEq

/-- `const Component = component || placeholder;
return Component ? <Component ref={Component === component ? ref : null} {...props} /> : null;`
The resolved component wins over the placeholder; the forwarded ref is
attached only when the rendered element is the resolved component; all props
are forwarded verbatim. -/
def renderInstance {C R P : Type} (component : Option C) (placeholder : Option C)
    (r : R) (p : P) : RenderOutput C R P :=
  match component with
  | some c => .element c (some r) p
  | none =>
    match placeholder with
    | some q => .element q none p
    | none => .empty

/-! ### The loader event system (lines 73-127)

The module-level closure state (`promise`, `component`), the promise's state
and the `.then` callbacks attached to it, and the rendered instances, are
modelled as one explicit state.  The single-threaded event loop is a step
function over environment events (preload calls, mounts, re-renders,
unmounts, and settlement of the factory promise). -/

/-- The factory promise: not yet settled, resolved with a module value, or
rejected. -/
inductive PromiseState (C : Type) where
  | pending
  | resolved (v : ModuleValue C)
  | rejected
deriving DecidableEq

/-- One rendered instance of the `AsyncComponent`: whether it is still
mounted, its `loaded` React state, and how many effect closures it has
created (the live `isMounted` flag belongs to closure `closures - 1`;
re-render cleanup and unmount invalidate older closures). -/
structure InstState where
  mounted : Bool
  loaded : Bool
  closures : Nat
deriving DecidableEq

/-- A callback attached via `.then` to the shared promise: the
`waitForPromise` callback that writes `component` (lines 86-89), or the
effect callback `() => { if (isMounted) setLoaded(true) }` of instance
`inst`'s effect closure number `closure` (lines 109-113). -/
inductive Callback where
  | setComponent
  | notify (inst : Nat) (closure : Nat)
deriving DecidableEq

/-- The whole loader state: `fromFactory` records whether the constructor was
given a factory function (as opposed to an already-created promise);
`promiseId`/`promisesCreated` model the module-level `promise` variable and
how many promises were ever assigned to it; `factoryCalls` counts invocations
of `loadComponent()`; `component` is the module-level resolved component;
`queue` holds the `.then` callbacks attached while the promise is pending. -/
structure LoaderSys (C : Type) where
  fromFactory : Bool
  promiseId : Option Nat
  promisesCreated : Nat
  factoryCalls : Nat
  promiseState : PromiseState C
  component : Option C
  queue : List Callback
  instances : List InstState
deriving DecidableEq

/-- State right after `AsyncEsmComponent` is called: no promise, no resolved
component, no instances. -/
def initLoader (C : Type) (fromFactory : Bool) : LoaderSys C :=
  ⟨fromFactory, none, 0, 0, .pending, none, [], []⟩

/-- Update the element at index `i` of a list, leaving other indices alone. -/
def updateAt {α : Type} : List α → Nat → (α → α) → List α
  | [], _, _ => []
  | a :: l, 0, f => f a :: l
  | a :: l, n + 1, f => a :: updateAt l n f

/-- Execute one callback with the promise's resolved value `v`.
`setComponent` performs `component = (result.default || result)`;
`notify i c` performs `if (isMounted) setLoaded(true)` — a no-op unless
instance `i` is still mounted and `c` is its most recent effect closure. -/
def runCallback {C : Type} (v : ModuleValue C) (s : LoaderSys C) :
    Callback → LoaderSys C
  | .setComponent => { s with component := some (unwrapModule v) }
  | .notify i c =>
    match s.instances.get? i with
    | some inst =>
      if inst.mounted && (c + 1 == inst.closures) then
        { s with instances := updateAt s.instances i (fun t => { t with loaded := true }) }
      else s
    | none => s

/-- Attach a `.then` callback to the shared promise.  While pending it is
queued (to run, in order, at resolution); on an already-resolved promise it
runs in a microtask with the resolved value; on a rejected promise a
fulfillment callback never runs. -/
def attachThen {C : Type} (s : LoaderSys C) (cb : Callback) : LoaderSys C :=
  match s.promiseState with
  | .pending => { s with queue := s.queue ++ [cb] }
  | .resolved v => runCallback v s cb
  | .rejected => s

/-- `waitForPromise` (lines 79-92): create the promise on first call (calling
the factory only when one was supplied), attach the `component`-capturing
callback while `component` is unset, and return the shared promise (its id). -/
def waitForPromise {C : Type} (s : LoaderSys C) : LoaderSys C × Nat :=
  let s1 :=
    match s.promiseId with
    | some _ => s
    | none =>
      { s with
        promiseId := some s.promisesCreated,
        promisesCreated := s.promisesCreated + 1,
        factoryCalls := s.factoryCalls + (if s.fromFactory then 1 else 0) }
  let s2 := if s1.component.isNone then attachThen s1 .setComponent else s1
  (s2, s2.promiseId.getD 0)

/-- The `useEffect` body after a render of instance `i` (lines 105-118): the
previous effect closure is cleaned up and a fresh one (with `isMounted =
true`) is created; when the instance is not yet `loaded`, it calls
`waitForPromise()` and attaches the `setLoaded` notification for the fresh
closure. -/
def runEffect {C : Type} (s : LoaderSys C) (i : Nat) : LoaderSys C :=
  match s.instances.get? i with
  | none => s
  | some inst =>
    let s1 := { s with instances := updateAt s.instances i (fun t => { t with closures := t.closures + 1 }) }
    if inst.loaded then s1
    else attachThen (waitForPromise s1).1 (.notify i inst.closures)

/-- Mounting a fresh instance: `useState(component !== undefined)` seeds
`loaded`, the instance is appended, and its first effect runs.  Returns the
new instance's index alongside the new state. -/
def mountInst {C : Type} (s : LoaderSys C) : LoaderSys C × Nat :=
  let inst : InstState := { mounted := true, loaded := s.component.isSome, closures := 0 }
  let i := s.instances.length
  (runEffect { s with instances := s.instances ++ [inst] } i, i)

/-- A re-render of a mounted instance: the effect re-runs (cleanup of the old
closure, then the effect body). -/
def rerenderStep {C : Type} (s : LoaderSys C) (i : Nat) : LoaderSys C :=
  match s.instances.get? i with
  | some inst => if inst.mounted then runEffect s i else s
  | none => s

/-- Unmount of instance `i`: the effect cleanup runs, setting its live
closure's `isMounted` flag to false.  Nothing else is touched. -/
def unmountStep {C : Type} (s : LoaderSys C) (i : Nat) : LoaderSys C :=
  { s with instances := updateAt s.instances i (fun t => { t with mounted := false }) }

/-- The factory promise resolves with module value `v` (only meaningful when
the promise exists and is still pending): the attached callbacks run in
attachment order. -/
def resolveStep {C : Type} (s : LoaderSys C) (v : ModuleValue C) : LoaderSys C :=
  match s.promiseId, s.promiseState with
  | some _, .pending =>
    s.queue.foldl (runCallback v) { s with promiseState := .resolved v, queue := [] }
  | _, _ => s

/-- The factory promise rejects: no fulfillment callback ever runs; the
rejection is not caught anywhere in the loader. -/
def rejectStep {C : Type} (s : LoaderSys C) : LoaderSys C :=
  match s.promiseId, s.promiseState with
  | some _, .pending => { s with promiseState := .rejected, queue := [] }
  | _, _ => s

/-- Environment events driving the loader. -/
inductive LoaderEvent (C : Type) where
  | preload
  | mount
  | rerender (i : Nat)
  | unmount (i : Nat)
  | resolve (v : ModuleValue C)
  | reject
deriving DecidableEq

/-- One event-loop step. -/
def step {C : Type} (s : LoaderSys C) : LoaderEvent C → LoaderSys C
  | .preload => (waitForPromise s).1
  | .mount => (mountInst s).1
  | .rerender i => rerenderStep s i
  | .unmount i => unmountStep s i
  | .resolve v => resolveStep s v
  | .reject => rejectStep s

/-- One event-loop step that also records the promise returned when the
event is a `preload()` call. -/
def outStep {C : Type} (p : LoaderSys C × List Nat) (ev : LoaderEvent C) :
    LoaderSys C × List Nat :=
  match ev with
  | .preload => ((waitForPromise p.1).1, p.2 ++ [(waitForPromise p.1).2])
  | e => (step p.1 e, p.2)

/-- Run an event sequence, also collecting the promise returned by each
`preload()` call. -/
def runOutputs {C : Type} (fromFactory : Bool) (evs : List (LoaderEvent C)) :
    LoaderSys C × List Nat :=
  evs.foldl outStep (initLoader C fromFactory, [])

/-- Run an event sequence from the fresh loader state. -/
def run {C : Type} (fromFactory : Bool) (evs : List (LoaderEvent C)) : LoaderSys C :=
  evs.foldl step (initLoader C fromFactory)

/-- The reachable-state invariant of the loader: the promise variable only
ever holds the single promise number 0 and is assigned at most once; the
factory has been called exactly when the promise exists and a factory was
supplied; `component` is populated exactly by the resolved module value; and
while the created promise is pending, the `component`-capturing callback sits
in its queue. -/
structure GoodState {C : Type} (s : LoaderSys C) : Prop where
  id_zero : ∀ k, s.promiseId = some k → k = 0
  created_count : s.promisesCreated = (if s.promiseId.isSome then 1 else 0)
  factory_count : s.factoryCalls = (if s.promiseId.isSome && s.fromFactory then 1 else 0)
  no_promise_pending : s.promiseId = none → s.promiseState = .pending
  resolved_component : ∀ v, s.promiseState = .resolved v → s.component = some (unwrapModule v)
  component_resolved : ∀ c, s.component = some c →
    ∃ v, s.promiseState = .resolved v ∧ c = unwrapModule v
  pending_setcb : s.promiseId.isSome = true → s.promiseState = .pending →
    Callback.setComponent ∈ s.queue

/-! ### Dashboard persistence thunks (dashboardInfo.ts)

Each async thunk is modelled as a function from the HTTP request's outcome
(the `await updateDashboard(...)` either returns a response or throws) to the
ordered trace of interactions — the PUT request itself and each `dispatch` —
together with the thunk's own outcome (`.ok ()` when it returns normally,
`.error e` when it rethrows). -/

/-- `FilterBarOrientation` enum from `src/dashboard/types`. -/
inductive FilterBarOrientation where
  | horizontal
  | vertical
deriving DecidableEq

/-- A dashboard theme object `{ id, name }`. -/
structure DashTheme where
  id : Nat
  name : String
deriving DecidableEq

/-- The parsed `json_metadata` fields these thunks read back from the
response. -/
structure DashMetadata where
  filter_bar_orientation : Option FilterBarOrientation
  cross_filters_enabled : Bool
deriving DecidableEq

/-- `response.result` for the theme/orientation/cross-filter thunks:
`Partial<DashboardInfo>`, of which only `theme` and `json_metadata` are
read. -/
structure ApiResult where
  theme : Option DashTheme
  json_metadata : Option DashMetadata
deriving DecidableEq

/-- The `makeApi` response shape `{ result, last_modified_time }` (a missing
or zero `last_modified_time` is falsy in `if (lastModifiedTime)`). -/
structure ApiResponse where
  result : ApiResult
  last_modified_time : Nat
deriving DecidableEq

/-- The Redux actions these thunks dispatch.  `CC`/`GCC` are the opaque
chart-configuration payload types; `M` is the opaque parsed dashboard
metadata dispatched by `dashboardInfoChanged`. -/
inductive DashAction (CC GCC M : Type) where
  | saveChartConfigBegin (cc : Option CC) (gcc : Option GCC)
  | saveChartConfigComplete (cc : Option CC) (gcc : Option GCC)
  | saveChartConfigFail (cc : Option CC) (gcc : Option GCC)
  | dashboardInfoChanged (metadata : M)
  | addDangerToast (msg : String)
  | setDashboardTheme (theme : Option DashTheme)
  | setFilterBarOrientation (o : FilterBarOrientation)
  | setCrossFiltersEnabled (b : Bool)
  | onSave (lastModifiedTime : Nat)
deriving DecidableEq

/-- One observable interaction of a thunk: dispatching an action, or issuing
the `PUT /api/v1/dashboard/:id` request. -/
inductive DashStep (CC GCC M : Type) where
  | dispatch (a : DashAction CC GCC M)
  | httpPut
deriving DecidableEq

/-- The toast text `t('Failed to save cross-filter scoping')`. -/
def saveChartConfigFailMsg : String := "Failed to save cross-filter scoping"

/-- `saveChartConfiguration` (lines 47-100): dispatch BEGIN, issue the PUT;
on success dispatch `dashboardInfoChanged` with the parsed response metadata,
then COMPLETE; on failure dispatch FAIL then the danger toast — the `catch`
swallows the error, so the thunk resolves normally either way. -/
def saveChartConfiguration {CC GCC M ε : Type} (cc : Option CC) (gcc : Option GCC)
    (httpResult : Except ε M) : List (DashStep CC GCC M) × Except ε Unit :=
  match httpResult with
  | .ok m =>
    ([.dispatch (.saveChartConfigBegin cc gcc), .httpPut,
      .dispatch (.dashboardInfoChanged m),
      .dispatch (.saveChartConfigComplete cc gcc)], .ok ())
  | .error _ =>
    ([.dispatch (.saveChartConfigBegin cc gcc), .httpPut,
      .dispatch (.saveChartConfigFail cc gcc),
      .dispatch (.addDangerToast saveChartConfigFailMsg)], .ok ())

/-- The three-way theme branch of `updateDashboardTheme` (lines 139-148). -/
def themeBranch (themeId : Option Nat) (resp : ApiResponse) : Option DashTheme :=
  match themeId with
  | none => none
  | some tid =>
    match resp.result.theme with
    | some th => some th
    | none => some ⟨tid, "Theme " ++ toString tid⟩

/-- `updateDashboardTheme` (lines 122-160): issue the PUT; on success
dispatch `setDashboardTheme` per the theme branch and `onSave` when the
response carries a (truthy) `last_modified_time`; on failure dispatch the
danger toast with `getErrorText`'s text and rethrow the error. -/
def updateDashboardTheme {CC GCC M ε : Type} (themeId : Option Nat)
    (getErrTxt : ε → String) (httpResult : Except ε ApiResponse) :
    List (DashStep CC GCC M) × Except ε Unit :=
  match httpResult with
  | .ok resp =>
    ([DashStep.httpPut, .dispatch (.setDashboardTheme (themeBranch themeId resp))]
      ++ (if resp.last_modified_time ≠ 0
          then [DashStep.dispatch (.onSave resp.last_modified_time)] else []),
     .ok ())
  | .error e => ([DashStep.httpPut, .dispatch (.addDangerToast (getErrTxt e))], .error e)

/-- `saveFilterBarOrientation` (lines 162-196): issue the PUT; on success,
when the response's `json_metadata` parses and carries a (truthy)
`filter_bar_orientation`, dispatch it; dispatch `onSave` on a truthy
`last_modified_time`; on failure dispatch the danger toast and rethrow. -/
def saveFilterBarOrientation {CC GCC M ε : Type} (_orientation : FilterBarOrientation)
    (getErrTxt : ε → String) (httpResult : Except ε ApiResponse) :
    List (DashStep CC GCC M) × Except ε Unit :=
  match httpResult with
  | .ok resp =>
    ([DashStep.httpPut]
      ++ (match resp.result.json_metadata with
          | some md =>
            match md.filter_bar_orientation with
            | some fbo => [DashStep.dispatch (.setFilterBarOrientation fbo)]
            | none => []
          | none => [])
      ++ (if resp.last_modified_time ≠ 0
          then [DashStep.dispatch (.onSave resp.last_modified_time)] else []),
     .ok ())
  | .error e => ([DashStep.httpPut, .dispatch (.addDangerToast (getErrTxt e))], .error e)

/-- `saveCrossFiltersSetting` (lines 198-230): issue the PUT; on success,
when `json_metadata` is present, dispatch `setCrossFiltersEnabled` with the
parsed flag (unconditionally, even `false`); dispatch `onSave` on a truthy
`last_modified_time`; on failure dispatch the danger toast and rethrow. -/
def saveCrossFiltersSetting {CC GCC M ε : Type} (_crossFiltersEnabled : Bool)
    (getErrTxt : ε → String) (httpResult : Except ε ApiResponse) :
    List (DashStep CC GCC M) × Except ε Unit :=
  match httpResult with
  | .ok resp =>
    ([DashStep.httpPut]
      ++ (match resp.result.json_metadata with
          | some md => [DashStep.dispatch (.setCrossFiltersEnabled md.cross_filters_enabled)]
          | none => [])
      ++ (if resp.last_modified_time ≠ 0
          then [DashStep.dispatch (.onSave resp.last_modified_time)] else []),
     .ok ())
  | .error e => ([DashStep.httpPut, .dispatch (.addDangerToast (getErrTxt e))], .error e)

/-- Is a step a dispatch of `SAVE_CHART_CONFIG_COMPLETE`? -/
def isCompleteStep {CC GCC M : Type} : DashStep CC GCC M → Bool
  | .dispatch (.saveChartConfigComplete _ _) => true
  | _ => false

/-- Is a step a dispatch of `SAVE_CHART_CONFIG_FAIL`? -/
def isFailStep {CC GCC M : Type} : DashStep CC GCC M → Bool
  | .dispatch (.saveChartConfigFail _ _) => true
  | _ => false

/-- Is a step a dispatch of a danger toast? -/
def isToastStep {CC GCC M : Type} : DashStep CC GCC M → Bool
  | .dispatch (.addDangerToast _) => true
  | _ => false

/-! ### Helper lemmas: `updateAt` and `runCallback` -/

theorem get?_updateAt_ne {α : Type} (l : List α) (f : α → α) :
    ∀ i j, i ≠ j → (updateAt l j f).get? i = l.get? i := by
  induction l with
  | nil => intro i j _; rfl
  | cons a l ih =>
    intro i j hij
    cases j with
    | zero =>
      cases i with
      | zero => exact absurd rfl hij
      | succ i => rfl
    | succ j =>
      cases i with
      | zero => rfl
      | succ i =>
        simpa [updateAt] using ih i j (fun h => hij (by rw [h]))

theorem get?_updateAt_self {α : Type} (l : List α) (f : α → α) :
    ∀ j, (updateAt l j f).get? j = (l.get? j).map f := by
  induction l with
  | nil => intro j; rfl
  | cons a l ih =>
    intro j
    cases j with
    | zero => rfl
    | succ j => simpa [updateAt] using ih j

theorem runCallback_notify_cases {C : Type} (v : ModuleValue C) (s : LoaderSys C)
    (i c : Nat) :
    runCallback v s (.notify i c) = s
    ∨ ((∃ inst, s.instances.get? i = some inst ∧ inst.mounted = true)
        ∧ runCallback v s (.notify i c)
          = { s with instances := updateAt s.instances i (fun t => { t with loaded := true }) }) := by
  simp only [runCallback]
  split
  next inst heq =>
    split
    next hcond =>
      right
      exact ⟨⟨inst, heq, (Bool.and_eq_true _ _ ▸ hcond).1⟩, rfl⟩
    next => left; rfl
  next => left; rfl

theorem runCallback_notify_component {C : Type} (v : ModuleValue C) (s : LoaderSys C)
    (i c : Nat) : (runCallback v s (.notify i c)).component = s.component := by
  rcases runCallback_notify_cases v s i c with h | ⟨_, h⟩ <;> rw [h]

theorem runCallback_fields {C : Type} (v : ModuleValue C) (s : LoaderSys C) (cb : Callback) :
    (runCallback v s cb).promiseId = s.promiseId
    ∧ (runCallback v s cb).promisesCreated = s.promisesCreated
    ∧ (runCallback v s cb).factoryCalls = s.factoryCalls
    ∧ (runCallback v s cb).fromFactory = s.fromFactory
    ∧ (runCallback v s cb).promiseState = s.promiseState
    ∧ (runCallback v s cb).queue = s.queue := by
  cases cb with
  | setComponent => exact ⟨rfl, rfl, rfl, rfl, rfl, rfl⟩
  | notify i c =>
    rcases runCallback_notify_cases v s i c with h | ⟨_, h⟩ <;> rw [h] <;>
      exact ⟨rfl, rfl, rfl, rfl, rfl, rfl⟩

theorem runCallback_component {C : Type} (v : ModuleValue C) (s : LoaderSys C) (cb : Callback) :
    (runCallback v s cb).component = s.component
    ∨ (runCallback v s cb).component = some (unwrapModule v) := by
  cases cb with
  | setComponent => exact Or.inr rfl
  | notify i c => exact Or.inl (runCallback_notify_component v s i c)

theorem flush_fields {C : Type} (v : ModuleValue C) (q : List Callback) (s : LoaderSys C) :
    (q.foldl (runCallback v) s).promiseId = s.promiseId
    ∧ (q.foldl (runCallback v) s).promisesCreated = s.promisesCreated
    ∧ (q.foldl (runCallback v) s).factoryCalls = s.factoryCalls
    ∧ (q.foldl (runCallback v) s).fromFactory = s.fromFactory
    ∧ (q.foldl (runCallback v) s).promiseState = s.promiseState
    ∧ (q.foldl (runCallback v) s).queue = s.queue := by
  induction q generalizing s with
  | nil => exact ⟨rfl, rfl, rfl, rfl, rfl, rfl⟩
  | cons cb q ih =>
    have h := runCallback_fields v s cb
    have h2 := ih (runCallback v s cb)
    simp only [List.foldl_cons]
    exact ⟨h2.1.trans h.1, h2.2.1.trans h.2.1, h2.2.2.1.trans h.2.2.1,
      h2.2.2.2.1.trans h.2.2.2.1, h2.2.2.2.2.1.trans h.2.2.2.2.1,
      h2.2.2.2.2.2.trans h.2.2.2.2.2⟩

theorem flush_component_of_eq {C : Type} (v : ModuleValue C) (q : List Callback)
    (s : LoaderSys C) (h : s.component = some (unwrapModule v)) :
    (q.foldl (runCallback v) s).component = some (unwrapModule v) := by
  induction q generalizing s with
  | nil => exact h
  | cons cb q ih =>
    simp only [List.foldl_cons]
    apply ih
    rcases runCallback_component v s cb with h1 | h1
    · rw [h1, h]
    · exact h1

theorem flush_component_of_mem {C : Type} (v : ModuleValue C) (q : List Callback)
    (s : LoaderSys C) (h : Callback.setComponent ∈ q) :
    (q.foldl (runCallback v) s).component = some (unwrapModule v) := by
  induction q generalizing s with
  | nil => cases h
  | cons cb q ih =>
    simp only [List.foldl_cons]
    rcases List.mem_cons.mp h with h1 | h1
    · rw [← h1]
      exact flush_component_of_eq v q _ rfl
    · exact ih _ h1

theorem runCallback_get?_unmounted {C : Type} (v : ModuleValue C) (s : LoaderSys C)
    (cb : Callback) (i : Nat) (inst : InstState)
    (hget : s.instances.get? i = some inst) (hm : inst.mounted = false) :
    (runCallback v s cb).instances.get? i = some inst := by
  cases cb with
  | setComponent => exact hget
  | notify j c =>
    rcases runCallback_notify_cases v s j c with h | ⟨⟨instj, hj, hmj⟩, h⟩
    · rw [h]; exact hget
    · rw [h]
      by_cases hij : i = j
      · subst hij
        rw [hget] at hj
        injection hj with hj
        rw [← hj] at hmj
        rw [hmj] at hm
        cases hm
      · rw [get?_updateAt_ne s.instances _ i j hij]
        exact hget

theorem flush_get?_unmounted {C : Type} (v : ModuleValue C) (q : List Callback)
    (s : LoaderSys C) (i : Nat) (inst : InstState)
    (hget : s.instances.get? i = some inst) (hm : inst.mounted = false) :
    (q.foldl (runCallback v) s).instances.get? i = some inst := by
  induction q generalizing s with
  | nil => exact hget
  | cons cb q ih =>
    simp only [List.foldl_cons]
    exact ih _ (runCallback_get?_unmounted v s cb i inst hget hm)

/-! ### Helper lemmas: `attachThen` and `waitForPromise` -/

theorem attachThen_pending {C : Type} (s : LoaderSys C) (cb : Callback)
    (hp : s.promiseState = .pending) :
    attachThen s cb = { s with queue := s.queue ++ [cb] } := by
  simp only [attachThen, hp]

theorem attachThen_resolved {C : Type} (s : LoaderSys C) (cb : Callback) (v : ModuleValue C)
    (hp : s.promiseState = .resolved v) : attachThen s cb = runCallback v s cb := by
  simp only [attachThen, hp]

theorem attachThen_rejected {C : Type} (s : LoaderSys C) (cb : Callback)
    (hp : s.promiseState = .rejected) : attachThen s cb = s := by
  simp only [attachThen, hp]

theorem attachThen_fields {C : Type} (s : LoaderSys C) (cb : Callback) :
    (attachThen s cb).promiseId = s.promiseId
    ∧ (attachThen s cb).promisesCreated = s.promisesCreated
    ∧ (attachThen s cb).factoryCalls = s.factoryCalls
    ∧ (attachThen s cb).fromFactory = s.fromFactory
    ∧ (attachThen s cb).promiseState = s.promiseState := by
  cases hp : s.promiseState with
  | pending => rw [attachThen_pending s cb hp]; exact ⟨rfl, rfl, rfl, rfl, hp⟩
  | resolved v =>
    rw [attachThen_resolved s cb v hp]
    have h := runCallback_fields v s cb
    exact ⟨h.1, h.2.1, h.2.2.1, h.2.2.2.1, h.2.2.2.2.1.trans hp⟩
  | rejected => rw [attachThen_rejected s cb hp]; exact ⟨rfl, rfl, rfl, rfl, hp⟩

theorem attachThen_notify_component {C : Type} (s : LoaderSys C) (i c : Nat) :
    (attachThen s (.notify i c)).component = s.component := by
  cases hp : s.promiseState with
  | pending => rw [attachThen_pending s _ hp]
  | resolved v => rw [attachThen_resolved s _ v hp]; exact runCallback_notify_component v s i c
  | rejected => rw [attachThen_rejected s _ hp]

theorem waitForPromise_shape_some {C : Type} (s : LoaderSys C) (k : Nat)
    (h : s.promiseId = some k) :
    (waitForPromise s).1 = if s.component.isNone then attachThen s .setComponent else s := by
  simp only [waitForPromise, h]

theorem waitForPromise_shape_none {C : Type} (s : LoaderSys C) (h : s.promiseId = none) :
    (waitForPromise s).1 =
      (if s.component.isNone
       then attachThen { s with
              promiseId := some s.promisesCreated,
              promisesCreated := s.promisesCreated + 1,
              factoryCalls := s.factoryCalls + (if s.fromFactory then 1 else 0) } .setComponent
       else { s with
              promiseId := some s.promisesCreated,
              promisesCreated := s.promisesCreated + 1,
              factoryCalls := s.factoryCalls + (if s.fromFactory then 1 else 0) }) := by
  simp only [waitForPromise, h]

theorem waitForPromise_out {C : Type} (s : LoaderSys C) :
    (waitForPromise s).2 = ((waitForPromise s).1).promiseId.getD 0 := rfl

theorem waitForPromise_fields {C : Type} (s : LoaderSys C) :
    ((waitForPromise s).1).promiseState = s.promiseState
    ∧ ((waitForPromise s).1).fromFactory = s.fromFactory := by
  cases hid : s.promiseId with
  | some k =>
    rw [waitForPromise_shape_some s k hid]
    split
    · exact ⟨(attachThen_fields s _).2.2.2.2, (attachThen_fields s _).2.2.2.1⟩
    · exact ⟨rfl, rfl⟩
  | none =>
    rw [waitForPromise_shape_none s hid]
    split
    · exact ⟨(attachThen_fields _ _).2.2.2.2, (attachThen_fields _ _).2.2.2.1⟩
    · exact ⟨rfl, rfl⟩

theorem waitForPromise_promiseId_of_some {C : Type} (s : LoaderSys C) (k : Nat)
    (h : s.promiseId = some k) : ((waitForPromise s).1).promiseId = some k := by
  rw [waitForPromise_shape_some s k h]
  split
  · rw [(attachThen_fields s _).1]; exact h
  · exact h

theorem waitForPromise_component_of_some {C : Type} (s : LoaderSys C) (c : C)
    (h : s.component = some c) : ((waitForPromise s).1).component = some c := by
  cases hid : s.promiseId with
  | some k =>
    rw [waitForPromise_shape_some s k hid, if_neg]
    · exact h
    · rw [h]; simp
  | none =>
    rw [waitForPromise_shape_none s hid, if_neg]
    · exact h
    · rw [h]; simp

/-- Transfer `GoodState` across a state whose promise-related fields agree. -/
theorem goodState_of_fields {C : Type} (s t : LoaderSys C)
    (h1 : t.promiseId = s.promiseId) (h2 : t.promisesCreated = s.promisesCreated)
    (h3 : t.factoryCalls = s.factoryCalls) (h4 : t.fromFactory = s.fromFactory)
    (h5 : t.promiseState = s.promiseState) (h6 : t.component = s.component)
    (h7 : t.queue = s.queue) (hs : GoodState s) : GoodState t := by
  constructor
  · intro k hk; exact hs.id_zero k (h1 ▸ hk)
  · rw [h2, h1, hs.created_count]
  · rw [h3, h1, h4, hs.factory_count]
  · intro h; rw [h5]; exact hs.no_promise_pending (h1 ▸ h)
  · intro v hv; rw [h6]; exact hs.resolved_component v (h5 ▸ hv)
  · intro c hc; rw [h5]; exact hs.component_resolved c (h6 ▸ hc)
  · intro hsome hpend; rw [h7]
    exact hs.pending_setcb (h1 ▸ hsome) (h5 ▸ hpend)

theorem goodState_attach {C : Type} (s : LoaderSys C) (cb : Callback)
    (hs : GoodState s) : GoodState (attachThen s cb) := by
  cases hp : s.promiseState with
  | pending =>
    rw [attachThen_pending s cb hp]
    constructor
    · exact hs.id_zero
    · exact hs.created_count
    · exact hs.factory_count
    · intro h; exact hs.no_promise_pending h
    · intro v hv
      exact hs.resolved_component v hv
    · intro c hc
      exact hs.component_resolved c hc
    · intro hsome _
      cases cb with
      | setComponent => exact List.mem_append_right _ (List.mem_singleton.mpr rfl)
      | notify i c => exact List.mem_append_left _ (hs.pending_setcb hsome hp)
  | resolved v =>
    rw [attachThen_resolved s cb v hp]
    cases cb with
    | setComponent =>
      constructor
      · exact hs.id_zero
      · exact hs.created_count
      · exact hs.factory_count
      · intro h
        exact PromiseState.noConfusion ((hs.no_promise_pending h).symm.trans hp)
      · intro w hw
        have hw2 : s.promiseState = PromiseState.resolved w := hw
        rw [hp] at hw2
        injection hw2 with hvw
        rw [← hvw]
        rfl
      · intro c hc
        have hc2 : some (unwrapModule v) = some c := hc
        injection hc2 with hc2
        exact ⟨v, hp, hc2.symm⟩
      · intro _ hpend
        have hpend2 : s.promiseState = PromiseState.pending := hpend
        exact PromiseState.noConfusion (hp.symm.trans hpend2)
    | notify i c =>
      exact goodState_of_fields s _ (runCallback_fields v s _).1 (runCallback_fields v s _).2.1
        (runCallback_fields v s _).2.2.1 (runCallback_fields v s _).2.2.2.1
        (runCallback_fields v s _).2.2.2.2.1 (runCallback_notify_component v s i c)
        (runCallback_fields v s _).2.2.2.2.2 hs
  | rejected => rw [attachThen_rejected s cb hp]; exact hs

/-! ### `GoodState` is preserved by every event -/

theorem goodState_set_instances {C : Type} (s : LoaderSys C) (l : List InstState)
    (hs : GoodState s) : GoodState { s with instances := l } :=
  goodState_of_fields s _ rfl rfl rfl rfl rfl rfl rfl hs

theorem goodState_created {C : Type} (t : LoaderSys C)
    (hid : t.promiseId = some 0)
    (hcount : t.promisesCreated = 1)
    (hfc : t.factoryCalls = (if t.fromFactory then 1 else 0))
    (hpend : t.promiseState = .pending)
    (hcomp : t.component = none) :
    GoodState (attachThen t .setComponent) := by
  rw [attachThen_pending t _ hpend]
  constructor
  · intro k hk
    have hk2 : t.promiseId = some k := hk
    rw [hid] at hk2
    injection hk2 with h
    exact h.symm
  · show t.promisesCreated = if t.promiseId.isSome then 1 else 0
    rw [hid, hcount]
    rfl
  · show t.factoryCalls = if t.promiseId.isSome && t.fromFactory then 1 else 0
    rw [hid, hfc]
    cases t.fromFactory <;> rfl
  · intro h
    have h2 : t.promiseId = none := h
    rw [hid] at h2
    exact Option.noConfusion h2
  · intro v hv
    have hv2 : t.promiseState = .resolved v := hv
    rw [hpend] at hv2
    exact PromiseState.noConfusion hv2
  · intro c hc
    have hc2 : t.component = some c := hc
    rw [hcomp] at hc2
    exact Option.noConfusion hc2
  · intro _ _
    exact List.mem_append_right _ (List.mem_singleton.mpr rfl)

theorem goodState_waitForPromise {C : Type} (s : LoaderSys C) (hs : GoodState s) :
    GoodState (waitForPromise s).1 := by
  cases hid : s.promiseId with
  | some k =>
    rw [waitForPromise_shape_some s k hid]
    split
    · exact goodState_attach s _ hs
    · exact hs
  | none =>
    have hpend : s.promiseState = .pending := hs.no_promise_pending hid
    have hcomp : s.component = none := by
      cases hc : s.component with
      | none => rfl
      | some c =>
        rcases hs.component_resolved c hc with ⟨v, hv, _⟩
        rw [hpend] at hv
        exact PromiseState.noConfusion hv
    have h0 : s.promisesCreated = 0 := by
      have h := hs.created_count
      rw [hid] at h
      simpa using h
    have hfc0 : s.factoryCalls = 0 := by
      have h := hs.factory_count
      rw [hid] at h
      simpa using h
    rw [waitForPromise_shape_none s hid, if_pos (by rw [hcomp]; rfl)]
    apply goodState_created
    · show some s.promisesCreated = some 0
      rw [h0]
    · show s.promisesCreated + 1 = 1
      rw [h0]
    · show s.factoryCalls + (if s.fromFactory then 1 else 0) = if s.fromFactory then 1 else 0
      rw [hfc0, Nat.zero_add]
    · exact hpend
    · exact hcomp

theorem runEffect_shape_none {C : Type} (s : LoaderSys C) (i : Nat)
    (h : s.instances.get? i = none) : runEffect s i = s := by
  simp only [runEffect, h]

theorem runEffect_shape_some {C : Type} (s : LoaderSys C) (i : Nat) (inst : InstState)
    (h : s.instances.get? i = some inst) :
    runEffect s i =
      (if inst.loaded
       then { s with instances := updateAt s.instances i (fun t => { t with closures := t.closures + 1 }) }
       else attachThen
         (waitForPromise { s with instances := updateAt s.instances i (fun t => { t with closures := t.closures + 1 }) }).1
         (.notify i inst.closures)) := by
  simp only [runEffect, h]

theorem goodState_runEffect {C : Type} (s : LoaderSys C) (i : Nat) (hs : GoodState s) :
    GoodState (runEffect s i) := by
  cases hg : s.instances.get? i with
  | none => rw [runEffect_shape_none s i hg]; exact hs
  | some inst =>
    rw [runEffect_shape_some s i inst hg]
    split
    · exact goodState_set_instances s _ hs
    · exact goodState_attach _ _ (goodState_waitForPromise _ (goodState_set_instances s _ hs))

theorem mountInst_fst {C : Type} (s : LoaderSys C) :
    (mountInst s).1 =
      runEffect
        { s with instances := s.instances ++ [{ mounted := true, loaded := s.component.isSome, closures := 0 }] }
        s.instances.length := rfl

theorem goodState_mount {C : Type} (s : LoaderSys C) (hs : GoodState s) :
    GoodState (mountInst s).1 := by
  rw [mountInst_fst]
  exact goodState_runEffect _ _ (goodState_set_instances s _ hs)

theorem rerenderStep_shape_none {C : Type} (s : LoaderSys C) (i : Nat)
    (h : s.instances.get? i = none) : rerenderStep s i = s := by
  simp only [rerenderStep, h]

theorem rerenderStep_shape_some {C : Type} (s : LoaderSys C) (i : Nat) (inst : InstState)
    (h : s.instances.get? i = some inst) :
    rerenderStep s i = if inst.mounted then runEffect s i else s := by
  simp only [rerenderStep, h]

theorem goodState_rerender {C : Type} (s : LoaderSys C) (i : Nat) (hs : GoodState s) :
    GoodState (rerenderStep s i) := by
  cases hg : s.instances.get? i with
  | none => rw [rerenderStep_shape_none s i hg]; exact hs
  | some inst =>
    rw [rerenderStep_shape_some s i inst hg]
    split
    · exact goodState_runEffect s i hs
    · exact hs

theorem goodState_unmount {C : Type} (s : LoaderSys C) (i : Nat) (hs : GoodState s) :
    GoodState (unmountStep s i) :=
  goodState_set_instances s _ hs

theorem resolveStep_shape_active {C : Type} (s : LoaderSys C) (v : ModuleValue C) (k : Nat)
    (hid : s.promiseId = some k) (hp : s.promiseState = .pending) :
    resolveStep s v = s.queue.foldl (runCallback v) { s with promiseState := .resolved v, queue := [] } := by
  simp only [resolveStep, hid, hp]

theorem resolveStep_shape_nopromise {C : Type} (s : LoaderSys C) (v : ModuleValue C)
    (hid : s.promiseId = none) : resolveStep s v = s := by
  simp only [resolveStep, hid]

theorem resolveStep_shape_resolved {C : Type} (s : LoaderSys C) (v w : ModuleValue C)
    (hp : s.promiseState = .resolved w) : resolveStep s v = s := by
  cases hid : s.promiseId with
  | none => simp only [resolveStep, hid]
  | some k => simp only [resolveStep, hid, hp]

theorem resolveStep_shape_rejected {C : Type} (s : LoaderSys C) (v : ModuleValue C)
    (hp : s.promiseState = .rejected) : resolveStep s v = s := by
  cases hid : s.promiseId with
  | none => simp only [resolveStep, hid]
  | some k => simp only [resolveStep, hid, hp]

theorem goodState_resolve {C : Type} (s : LoaderSys C) (v : ModuleValue C)
    (hs : GoodState s) : GoodState (resolveStep s v) := by
  cases hid : s.promiseId with
  | none => rw [resolveStep_shape_nopromise s v hid]; exact hs
  | some k =>
    cases hp : s.promiseState with
    | resolved w => rw [resolveStep_shape_resolved s v w hp]; exact hs
    | rejected => rw [resolveStep_shape_rejected s v hp]; exact hs
    | pending =>
      rw [resolveStep_shape_active s v k hid hp]
      have hmem : Callback.setComponent ∈ s.queue :=
        hs.pending_setcb (by rw [hid]; rfl) hp
      have hflush := flush_fields v s.queue
        { s with promiseState := .resolved v, queue := [] }
      have hcomp : (s.queue.foldl (runCallback v)
          { s with promiseState := .resolved v, queue := [] }).component
          = some (unwrapModule v) :=
        flush_component_of_mem v s.queue _ hmem
      have hr1 : (s.queue.foldl (runCallback v)
          { s with promiseState := .resolved v, queue := [] }).promiseId = s.promiseId :=
        hflush.1
      have hps : (s.queue.foldl (runCallback v)
          { s with promiseState := .resolved v, queue := [] }).promiseState
          = PromiseState.resolved v :=
        hflush.2.2.2.2.1
      constructor
      · intro k' hk'
        rw [hr1] at hk'
        exact hs.id_zero k' hk'
      · have h2 : (s.queue.foldl (runCallback v)
            { s with promiseState := .resolved v, queue := [] }).promisesCreated
            = s.promisesCreated := hflush.2.1
        rw [h2, hr1, hs.created_count]
      · have h3 : (s.queue.foldl (runCallback v)
            { s with promiseState := .resolved v, queue := [] }).factoryCalls
            = s.factoryCalls := hflush.2.2.1
        have h4 : (s.queue.foldl (runCallback v)
            { s with promiseState := .resolved v, queue := [] }).fromFactory
            = s.fromFactory := hflush.2.2.2.1
        rw [h3, hr1, h4, hs.factory_count]
      · intro h
        rw [hr1, hid] at h
        exact Option.noConfusion h
      · intro w hw
        rw [hps] at hw
        injection hw with hw
        rw [← hw]
        exact hcomp
      · intro c hc
        rw [hcomp] at hc
        injection hc with hc
        exact ⟨v, hps, hc.symm⟩
      · intro _ hpend
        rw [hps] at hpend
        exact PromiseState.noConfusion hpend

theorem rejectStep_shape_active {C : Type} (s : LoaderSys C) (k : Nat)
    (hid : s.promiseId = some k) (hp : s.promiseState = .pending) :
    rejectStep s = { s with promiseState := .rejected, queue := [] } := by
  simp only [rejectStep, hid, hp]

theorem rejectStep_shape_nopromise {C : Type} (s : LoaderSys C)
    (hid : s.promiseId = none) : rejectStep s = s := by
  simp only [rejectStep, hid]

theorem rejectStep_shape_resolved {C : Type} (s : LoaderSys C) (w : ModuleValue C)
    (hp : s.promiseState = .resolved w) : rejectStep s = s := by
  cases hid : s.promiseId with
  | none => simp only [rejectStep, hid]
  | some k => simp only [rejectStep, hid, hp]

theorem rejectStep_shape_rejected {C : Type} (s : LoaderSys C)
    (hp : s.promiseState = .rejected) : rejectStep s = s := by
  cases hid : s.promiseId with
  | none => simp only [rejectStep, hid]
  | some k => simp only [rejectStep, hid, hp]

theorem goodState_reject {C : Type} (s : LoaderSys C) (hs : GoodState s) :
    GoodState (rejectStep s) := by
  cases hid : s.promiseId with
  | none => rw [rejectStep_shape_nopromise s hid]; exact hs
  | some k =>
    cases hp : s.promiseState with
    | resolved w => rw [rejectStep_shape_resolved s w hp]; exact hs
    | rejected => rw [rejectStep_shape_rejected s hp]; exact hs
    | pending =>
      rw [rejectStep_shape_active s k hid hp]
      have hcomp : s.component = none := by
        cases hc : s.component with
        | none => rfl
        | some c =>
          rcases hs.component_resolved c hc with ⟨w, hw, _⟩
          rw [hp] at hw
          exact PromiseState.noConfusion hw
      constructor
      · exact hs.id_zero
      · exact hs.created_count
      · exact hs.factory_count
      · intro h
        have h2 : s.promiseId = none := h
        rw [hid] at h2
        exact Option.noConfusion h2
      · intro w hw
        have hw2 : PromiseState.rejected = PromiseState.resolved w := hw
        exact PromiseState.noConfusion hw2
      · intro c hc
        have hc2 : s.component = some c := hc
        rw [hcomp] at hc2
        exact Option.noConfusion hc2
      · intro _ hpend
        have hp2 : PromiseState.rejected = PromiseState.pending := hpend
        exact PromiseState.noConfusion hp2

theorem goodState_init {C : Type} (ff : Bool) : GoodState (initLoader C ff) := by
  constructor
  · intro k hk; exact Option.noConfusion hk
  · rfl
  · rfl
  · intro _; rfl
  · intro v hv; exact PromiseState.noConfusion hv
  · intro c hc; exact Option.noConfusion hc
  · intro hsome _; exact Bool.noConfusion hsome

theorem goodState_step {C : Type} (s : LoaderSys C) (e : LoaderEvent C)
    (hs : GoodState s) : GoodState (step s e) := by
  cases e with
  | preload => exact goodState_waitForPromise s hs
  | mount => exact goodState_mount s hs
  | rerender i => exact goodState_rerender s i hs
  | unmount i => exact goodState_unmount s i hs
  | resolve v => exact goodState_resolve s v hs
  | reject => exact goodState_reject s hs

theorem goodState_foldl {C : Type} (evs : List (LoaderEvent C)) (s : LoaderSys C)
    (hs : GoodState s) : GoodState (evs.foldl step s) := by
  induction evs generalizing s with
  | nil => exact hs
  | cons e evs ih => exact ih _ (goodState_step s e hs)

theorem goodState_run {C : Type} (ff : Bool) (evs : List (LoaderEvent C)) :
    GoodState (run ff evs) :=
  goodState_foldl evs _ (goodState_init ff)

/-! ### Monotonicity of the loader state -/

theorem goodState_component_none {C : Type} (s : LoaderSys C) (hs : GoodState s)
    (hp : s.promiseState = .pending) : s.component = none := by
  cases hc : s.component with
  | none => rfl
  | some c =>
    rcases hs.component_resolved c hc with ⟨v, hv, _⟩
    rw [hp] at hv
    exact PromiseState.noConfusion hv

theorem runEffect_keeps {C : Type} (s : LoaderSys C) (i : Nat) :
    (runEffect s i).promiseState = s.promiseState
    ∧ (runEffect s i).fromFactory = s.fromFactory := by
  cases hg : s.instances.get? i with
  | none => rw [runEffect_shape_none s i hg]; exact ⟨rfl, rfl⟩
  | some inst =>
    rw [runEffect_shape_some s i inst hg]
    split
    · exact ⟨rfl, rfl⟩
    · constructor
      · rw [(attachThen_fields _ _).2.2.2.2, (waitForPromise_fields _).1]
      · rw [(attachThen_fields _ _).2.2.2.1, (waitForPromise_fields _).2]

theorem runEffect_promiseId_of_some {C : Type} (s : LoaderSys C) (i : Nat) (k : Nat)
    (h : s.promiseId = some k) : (runEffect s i).promiseId = some k := by
  cases hg : s.instances.get? i with
  | none => rw [runEffect_shape_none s i hg]; exact h
  | some inst =>
    rw [runEffect_shape_some s i inst hg]
    split
    · exact h
    · rw [(attachThen_fields _ _).1]
      exact waitForPromise_promiseId_of_some _ k h

theorem runEffect_component_of_some {C : Type} (s : LoaderSys C) (i : Nat) (c : C)
    (h : s.component = some c) : (runEffect s i).component = some c := by
  cases hg : s.instances.get? i with
  | none => rw [runEffect_shape_none s i hg]; exact h
  | some inst =>
    rw [runEffect_shape_some s i inst hg]
    split
    · exact h
    · rw [attachThen_notify_component]
      exact waitForPromise_component_of_some _ c h

theorem rejectStep_component {C : Type} (s : LoaderSys C) :
    (rejectStep s).component = s.component := by
  cases hid : s.promiseId with
  | none => rw [rejectStep_shape_nopromise s hid]
  | some k =>
    cases hp : s.promiseState with
    | pending => rw [rejectStep_shape_active s k hid hp]
    | resolved w => rw [rejectStep_shape_resolved s w hp]
    | rejected => rw [rejectStep_shape_rejected s hp]

theorem step_fromFactory {C : Type} (s : LoaderSys C) (e : LoaderEvent C) :
    (step s e).fromFactory = s.fromFactory := by
  cases e with
  | preload => exact (waitForPromise_fields s).2
  | mount => simp only [step]; rw [mountInst_fst]; exact (runEffect_keeps _ _).2
  | rerender i =>
    simp only [step]
    cases hg : s.instances.get? i with
    | none => rw [rerenderStep_shape_none s i hg]
    | some inst =>
      rw [rerenderStep_shape_some s i inst hg]
      split
      · exact (runEffect_keeps s i).2
      · rfl
  | unmount i => rfl
  | resolve v =>
    simp only [step]
    cases hid : s.promiseId with
    | none => rw [resolveStep_shape_nopromise s v hid]
    | some k =>
      cases hp : s.promiseState with
      | pending =>
        rw [resolveStep_shape_active s v k hid hp]
        exact (flush_fields v s.queue _).2.2.2.1
      | resolved w => rw [resolveStep_shape_resolved s v w hp]
      | rejected => rw [resolveStep_shape_rejected s v hp]
  | reject =>
    simp only [step]
    cases hid : s.promiseId with
    | none => rw [rejectStep_shape_nopromise s hid]
    | some k =>
      cases hp : s.promiseState with
      | pending => rw [rejectStep_shape_active s k hid hp]
      | resolved w => rw [rejectStep_shape_resolved s w hp]
      | rejected => rw [rejectStep_shape_rejected s hp]

theorem step_promiseId_of_some {C : Type} (s : LoaderSys C) (e : LoaderEvent C) (k : Nat)
    (h : s.promiseId = some k) : (step s e).promiseId = some k := by
  cases e with
  | preload => exact waitForPromise_promiseId_of_some s k h
  | mount => simp only [step]; rw [mountInst_fst]; exact runEffect_promiseId_of_some _ _ k h
  | rerender i =>
    simp only [step]
    cases hg : s.instances.get? i with
    | none => rw [rerenderStep_shape_none s i hg]; exact h
    | some inst =>
      rw [rerenderStep_shape_some s i inst hg]
      split
      · exact runEffect_promiseId_of_some s i k h
      · exact h
  | unmount i => exact h
  | resolve v =>
    simp only [step]
    cases hp : s.promiseState with
    | pending =>
      rw [resolveStep_shape_active s v k h hp, (flush_fields v s.queue _).1]
      exact h
    | resolved w => rw [resolveStep_shape_resolved s v w hp]; exact h
    | rejected => rw [resolveStep_shape_rejected s v hp]; exact h
  | reject =>
    simp only [step]
    cases hp : s.promiseState with
    | pending => rw [rejectStep_shape_active s k h hp]; exact h
    | resolved w => rw [rejectStep_shape_resolved s w hp]; exact h
    | rejected => rw [rejectStep_shape_rejected s hp]; exact h

theorem step_promiseState_settled {C : Type} (s : LoaderSys C) (e : LoaderEvent C)
    (h : s.promiseState ≠ .pending) : (step s e).promiseState = s.promiseState := by
  cases e with
  | preload => exact (waitForPromise_fields s).1
  | mount => simp only [step]; rw [mountInst_fst]; exact (runEffect_keeps _ _).1
  | rerender i =>
    simp only [step]
    cases hg : s.instances.get? i with
    | none => rw [rerenderStep_shape_none s i hg]
    | some inst =>
      rw [rerenderStep_shape_some s i inst hg]
      split
      · exact (runEffect_keeps s i).1
      · rfl
  | unmount i => rfl
  | resolve v =>
    simp only [step]
    cases hid : s.promiseId with
    | none => rw [resolveStep_shape_nopromise s v hid]
    | some k =>
      cases hp : s.promiseState with
      | pending => exact absurd hp h
      | resolved w => rw [resolveStep_shape_resolved s v w hp]; exact hp
      | rejected => rw [resolveStep_shape_rejected s v hp]; exact hp
  | reject =>
    simp only [step]
    cases hid : s.promiseId with
    | none => rw [rejectStep_shape_nopromise s hid]
    | some k =>
      cases hp : s.promiseState with
      | pending => exact absurd hp h
      | resolved w => rw [rejectStep_shape_resolved s w hp]; exact hp
      | rejected => rw [rejectStep_shape_rejected s hp]; exact hp

theorem step_component_of_some {C : Type} (s : LoaderSys C) (e : LoaderEvent C) (c : C)
    (hs : GoodState s) (h : s.component = some c) : (step s e).component = some c := by
  cases e with
  | preload => exact waitForPromise_component_of_some s c h
  | mount => simp only [step]; rw [mountInst_fst]; exact runEffect_component_of_some _ _ c h
  | rerender i =>
    simp only [step]
    cases hg : s.instances.get? i with
    | none => rw [rerenderStep_shape_none s i hg]; exact h
    | some inst =>
      rw [rerenderStep_shape_some s i inst hg]
      split
      · exact runEffect_component_of_some s i c h
      · exact h
  | unmount i => exact h
  | resolve v =>
    simp only [step]
    rcases hs.component_resolved c h with ⟨w, hw, _⟩
    rw [resolveStep_shape_resolved s v w hw]
    exact h
  | reject => simp only [step]; rw [rejectStep_component]; exact h

theorem foldl_promiseState_settled {C : Type} (evs : List (LoaderEvent C)) (s : LoaderSys C)
    (h : s.promiseState ≠ .pending) : (evs.foldl step s).promiseState = s.promiseState := by
  induction evs generalizing s with
  | nil => rfl
  | cons e evs ih =>
    have h1 := step_promiseState_settled s e h
    have h2 := ih (step s e) (by rw [h1]; exact h)
    simp only [List.foldl_cons]
    rw [h2, h1]

theorem foldl_component_of_some {C : Type} (evs : List (LoaderEvent C)) (s : LoaderSys C)
    (c : C) (hs : GoodState s) (h : s.component = some c) :
    (evs.foldl step s).component = some c := by
  induction evs generalizing s with
  | nil => exact h
  | cons e evs ih =>
    simp only [List.foldl_cons]
    exact ih (step s e) (goodState_step s e hs) (step_component_of_some s e c hs h)

theorem run_append {C : Type} (ff : Bool) (evs evs' : List (LoaderEvent C)) :
    run ff (evs ++ evs') = evs'.foldl step (run ff evs) := by
  simp only [run, List.foldl_append]

/-! ### The collected `preload()` outputs -/

theorem waitForPromise_id_zero {C : Type} (s : LoaderSys C) (hs : GoodState s) :
    ((waitForPromise s).1).promiseId = some 0 ∧ (waitForPromise s).2 = 0 := by
  cases hid : s.promiseId with
  | some k =>
    have hk0 : k = 0 := hs.id_zero k hid
    subst hk0
    have h1 := waitForPromise_promiseId_of_some s 0 hid
    exact ⟨h1, by rw [waitForPromise_out, h1]; rfl⟩
  | none =>
    have h0 : s.promisesCreated = 0 := by
      have h := hs.created_count
      rw [hid] at h
      simpa using h
    have h1 : ((waitForPromise s).1).promiseId = some 0 := by
      rw [waitForPromise_shape_none s hid]
      split
      · rw [(attachThen_fields _ _).1]
        show some s.promisesCreated = some 0
        rw [h0]
      · show some s.promisesCreated = some 0
        rw [h0]
    exact ⟨h1, by rw [waitForPromise_out, h1]; rfl⟩

theorem outStep_other {C : Type} (p : LoaderSys C × List Nat) (ev : LoaderEvent C)
    (h : ev ≠ LoaderEvent.preload) : outStep p ev = (step p.1 ev, p.2) := by
  cases ev with
  | preload => exact absurd rfl h
  | mount => rfl
  | rerender i => rfl
  | unmount i => rfl
  | resolve v => rfl
  | reject => rfl

theorem outStep_inv {C : Type} (ff : Bool) (p : LoaderSys C × List Nat) (ev : LoaderEvent C)
    (h1 : GoodState p.1) (h2 : p.1.fromFactory = ff)
    (h3 : ∀ x ∈ p.2, x = 0) (h4 : p.2 ≠ [] → p.1.promiseId.isSome = true) :
    GoodState (outStep p ev).1 ∧ (outStep p ev).1.fromFactory = ff
    ∧ (∀ x ∈ (outStep p ev).2, x = 0)
    ∧ ((outStep p ev).2 ≠ [] → (outStep p ev).1.promiseId.isSome = true) := by
  cases ev with
  | preload =>
    have hid := waitForPromise_id_zero p.1 h1
    refine ⟨goodState_waitForPromise p.1 h1, ?_, ?_, ?_⟩
    · show ((waitForPromise p.1).1).fromFactory = ff
      rw [(waitForPromise_fields p.1).2]
      exact h2
    · intro x hx
      rcases List.mem_append.mp hx with hx | hx
      · exact h3 x hx
      · rw [List.mem_singleton.mp hx]
        exact hid.2
    · intro _
      show ((waitForPromise p.1).1).promiseId.isSome = true
      rw [hid.1]
      rfl
  | mount =>
    rw [outStep_other p _ (fun hh => LoaderEvent.noConfusion hh)]
    dsimp only
    refine ⟨goodState_step _ _ h1, (step_fromFactory _ _).trans h2, h3, ?_⟩
    intro hne
    rcases Option.isSome_iff_exists.mp (h4 hne) with ⟨k, hk⟩
    rw [step_promiseId_of_some _ _ k hk]
    rfl
  | rerender i =>
    rw [outStep_other p _ (fun hh => LoaderEvent.noConfusion hh)]
    dsimp only
    refine ⟨goodState_step _ _ h1, (step_fromFactory _ _).trans h2, h3, ?_⟩
    intro hne
    rcases Option.isSome_iff_exists.mp (h4 hne) with ⟨k, hk⟩
    rw [step_promiseId_of_some _ _ k hk]
    rfl
  | unmount i =>
    rw [outStep_other p _ (fun hh => LoaderEvent.noConfusion hh)]
    dsimp only
    refine ⟨goodState_step _ _ h1, (step_fromFactory _ _).trans h2, h3, ?_⟩
    intro hne
    rcases Option.isSome_iff_exists.mp (h4 hne) with ⟨k, hk⟩
    rw [step_promiseId_of_some _ _ k hk]
    rfl
  | resolve v =>
    rw [outStep_other p _ (fun hh => LoaderEvent.noConfusion hh)]
    dsimp only
    refine ⟨goodState_step _ _ h1, (step_fromFactory _ _).trans h2, h3, ?_⟩
    intro hne
    rcases Option.isSome_iff_exists.mp (h4 hne) with ⟨k, hk⟩
    rw [step_promiseId_of_some _ _ k hk]
    rfl
  | reject =>
    rw [outStep_other p _ (fun hh => LoaderEvent.noConfusion hh)]
    dsimp only
    refine ⟨goodState_step _ _ h1, (step_fromFactory _ _).trans h2, h3, ?_⟩
    intro hne
    rcases Option.isSome_iff_exists.mp (h4 hne) with ⟨k, hk⟩
    rw [step_promiseId_of_some _ _ k hk]
    rfl

theorem outFoldl_inv {C : Type} (ff : Bool) (evs : List (LoaderEvent C))
    (p : LoaderSys C × List Nat)
    (h1 : GoodState p.1) (h2 : p.1.fromFactory = ff)
    (h3 : ∀ x ∈ p.2, x = 0) (h4 : p.2 ≠ [] → p.1.promiseId.isSome = true) :
    GoodState (evs.foldl outStep p).1
    ∧ (evs.foldl outStep p).1.fromFactory = ff
    ∧ (∀ x ∈ (evs.foldl outStep p).2, x = 0)
    ∧ ((evs.foldl outStep p).2 ≠ [] → (evs.foldl outStep p).1.promiseId.isSome = true) := by
  induction evs generalizing p with
  | nil => exact ⟨h1, h2, h3, h4⟩
  | cons e evs ih =>
    simp only [List.foldl_cons]
    have h := outStep_inv ff p e h1 h2 h3 h4
    exact ih _ h.1 h.2.1 h.2.2.1 h.2.2.2

theorem mountInst_snd {C : Type} (s : LoaderSys C) :
    (mountInst s).2 = s.instances.length := rfl

theorem get?_concat_len {α : Type} (l : List α) (a : α) :
    (l ++ [a]).get? l.length = some a := by
  induction l with
  | nil => rfl
  | cons x l ih => simp only [List.cons_append, List.length_cons, List.get?_cons_succ]; exact ih

/-! ### The claims -/

/-- Claim C1: for every loader, calling `preload()` (`waitForPromise`) any
number of times, interleaved arbitrarily with renders, mounts, unmounts and
promise settlement, invokes the underlying factory at most once — exactly
once as soon as `preload` was called at least once on a factory-constructed
loader — and every `preload` call returns the same shared promise. -/
theorem preload_invokes_factory_once {C : Type} (ff : Bool) (evs : List (LoaderEvent C)) :
    (runOutputs ff evs).1.factoryCalls ≤ 1
    ∧ (ff = true → (runOutputs ff evs).2 ≠ [] → (runOutputs ff evs).1.factoryCalls = 1)
    ∧ (∀ a ∈ (runOutputs ff evs).2, ∀ b ∈ (runOutputs ff evs).2, a = b) := by
  have h := outFoldl_inv ff evs (initLoader C ff, []) (goodState_init ff) rfl
    (by intro x hx; cases hx) (fun hne => absurd rfl hne)
  obtain ⟨hg, hf, hz, hne⟩ := h
  simp only [runOutputs]
  refine ⟨?_, ?_, ?_⟩
  · rw [hg.factory_count]
    split
    · exact le_refl 1
    · exact Nat.zero_le 1
  · intro hff hout
    rw [hg.factory_count, hne hout, hf, hff]
    rfl
  · intro a ha b hb
    rw [hz a ha, hz b hb]

/-- Witness for C1 at a concrete input: two `preload` calls on a
factory-backed loader leave exactly one factory invocation. -/
theorem preload_invokes_factory_once_w :
    ((true = true)
      ∧ (runOutputs (C := Nat) true [LoaderEvent.preload, LoaderEvent.preload]).2 ≠ [])
    ∧ (runOutputs (C := Nat) true [LoaderEvent.preload, LoaderEvent.preload]).1.factoryCalls = 1 :=
  ⟨⟨rfl, by decide⟩,
    (preload_invokes_factory_once true [LoaderEvent.preload, LoaderEvent.preload]).2.1
      rfl (by decide)⟩

/-- Claim C2: the shared loader state is monotonic — the pending promise is
created at most once over the instance's lifetime, and once `component` is
populated it keeps that very value under every further event. -/
theorem loader_state_monotonic {C : Type} (ff : Bool) (evs evs' : List (LoaderEvent C))
    (c : C) :
    (run ff evs).promisesCreated ≤ 1
    ∧ ((run ff evs).component = some c → (run ff (evs ++ evs')).component = some c) := by
  constructor
  · have hg := goodState_run ff evs
    rw [hg.created_count]
    split
    · exact le_refl 1
    · exact Nat.zero_le 1
  · intro h
    rw [run_append]
    exact foldl_component_of_some evs' _ c (goodState_run ff evs) h

/-- Witness for C2 at a concrete input: after resolution to `7`, further
preloads and mounts leave the resolved component at `7`. -/
theorem loader_state_monotonic_w :
    (run (C := Nat) true
        [LoaderEvent.preload, LoaderEvent.resolve (ModuleValue.direct 7)]).component = some 7
    ∧ (run (C := Nat) true
        ([LoaderEvent.preload, LoaderEvent.resolve (ModuleValue.direct 7)]
          ++ [LoaderEvent.mount, LoaderEvent.preload])).component = some 7 :=
  ⟨by decide,
    (loader_state_monotonic true
      [LoaderEvent.preload, LoaderEvent.resolve (ModuleValue.direct 7)]
      [LoaderEvent.mount, LoaderEvent.preload] 7).2 (by decide)⟩

/-- Claim C3: a factory resolving to `{ default: X }` and a factory resolving
to `X` directly both store `X` as the resolved component, and the two paths
render identically. -/
theorem module_default_unwrap {C : Type} (ff : Bool) (X : C) :
    (run ff [LoaderEvent.preload, LoaderEvent.resolve (ModuleValue.withDefault X)]).component
      = some X
    ∧ (run ff [LoaderEvent.preload, LoaderEvent.resolve (ModuleValue.direct X)]).component
      = some X
    ∧ unwrapModule (ModuleValue.withDefault X) = unwrapModule (ModuleValue.direct X)
    ∧ ∀ (R P : Type) (ph : Option C) (r : R) (p : P),
        renderInstance
            (run ff [LoaderEvent.preload, LoaderEvent.resolve (ModuleValue.withDefault X)]).component
            ph r p
          = renderInstance
              (run ff [LoaderEvent.preload, LoaderEvent.resolve (ModuleValue.direct X)]).component
              ph r p :=
  ⟨rfl, rfl, rfl, fun _ _ _ _ _ => rfl⟩

/-- Claim C4: once the factory promise rejects, it stays rejected forever,
`component` is never populated, and every subsequent render of any instance
renders exactly what an unresolved loader renders (the placeholder path). -/
theorem rejection_leaves_placeholder {C : Type} (ff : Bool)
    (evs evs' : List (LoaderEvent C))
    (h : (run ff evs).promiseState = PromiseState.rejected) :
    (run ff (evs ++ evs')).promiseState = PromiseState.rejected
    ∧ (run ff (evs ++ evs')).component = none
    ∧ ∀ (R P : Type) (ph : Option C) (r : R) (p : P),
        renderInstance (run ff (evs ++ evs')).component ph r p
          = renderInstance none ph r p := by
  have hrej : (run ff (evs ++ evs')).promiseState = PromiseState.rejected := by
    rw [run_append,
      foldl_promiseState_settled evs' _ (by rw [h]; intro hh; exact PromiseState.noConfusion hh)]
    exact h
  have hg := goodState_run ff (evs ++ evs')
  have hcomp : (run ff (evs ++ evs')).component = none := by
    cases hc : (run ff (evs ++ evs')).component with
    | none => rfl
    | some c =>
      rcases hg.component_resolved c hc with ⟨v, hv, _⟩
      rw [hrej] at hv
      exact PromiseState.noConfusion hv
  exact ⟨hrej, hcomp, fun R P ph r p => by rw [hcomp]⟩

/-- Witness for C4 at a concrete input: after `preload` then rejection,
mounting and re-rendering never populate the component. -/
theorem rejection_leaves_placeholder_w :
    (run (C := Nat) true [LoaderEvent.preload, LoaderEvent.reject]).promiseState
      = PromiseState.rejected
    ∧ (run (C := Nat) true
        ([LoaderEvent.preload, LoaderEvent.reject]
          ++ [LoaderEvent.mount, LoaderEvent.rerender 0])).component = none :=
  ⟨by decide,
    (rejection_leaves_placeholder true [LoaderEvent.preload, LoaderEvent.reject]
      [LoaderEvent.mount, LoaderEvent.rerender 0] (by decide)).2.1⟩

/-- Claim C5: unmounting an instance touches nothing but that instance's
mounted flag (the shared promise, resolved component, queue, factory count
and all other instances are untouched), and when the promise later resolves,
an unmounted instance receives no `setLoaded` update — its state is left
entirely unchanged by the resolution. -/
theorem unmount_isolation {C : Type} (s : LoaderSys C) (i : Nat) (v : ModuleValue C)
    (inst : InstState) :
    ((unmountStep s i).promiseId = s.promiseId
     ∧ (unmountStep s i).promiseState = s.promiseState
     ∧ (unmountStep s i).component = s.component
     ∧ (unmountStep s i).queue = s.queue
     ∧ (unmountStep s i).factoryCalls = s.factoryCalls
     ∧ ∀ j, j ≠ i → (unmountStep s i).instances.get? j = s.instances.get? j)
    ∧ (s.instances.get? i = some inst → inst.mounted = false →
        (resolveStep s v).instances.get? i = some inst) := by
  constructor
  · refine ⟨rfl, rfl, rfl, rfl, rfl, ?_⟩
    intro j hj
    exact get?_updateAt_ne s.instances _ j i hj
  · intro hget hm
    cases hid : s.promiseId with
    | none => rw [resolveStep_shape_nopromise s v hid]; exact hget
    | some k =>
      cases hp : s.promiseState with
      | pending =>
        rw [resolveStep_shape_active s v k hid hp]
        exact flush_get?_unmounted v s.queue _ i inst hget hm
      | resolved w => rw [resolveStep_shape_resolved s v w hp]; exact hget
      | rejected => rw [resolveStep_shape_rejected s v hp]; exact hget

/-- Witness for C5 at a concrete input: an instance unmounted before
resolution is untouched when the promise resolves. -/
theorem unmount_isolation_w :
    ((run (C := Nat) true [LoaderEvent.mount, LoaderEvent.unmount 0]).instances.get? 0
        = some { mounted := false, loaded := false, closures := 1 })
    ∧ (resolveStep (run (C := Nat) true [LoaderEvent.mount, LoaderEvent.unmount 0])
        (ModuleValue.direct 7)).instances.get? 0
        = some { mounted := false, loaded := false, closures := 1 } :=
  ⟨by decide,
    (unmount_isolation (run (C := Nat) true [LoaderEvent.mount, LoaderEvent.unmount 0]) 0
      (ModuleValue.direct 7) { mounted := false, loaded := false, closures := 1 }).2
      (by decide) (by decide)⟩

/-- Claim C6: when the resolved component is already populated (e.g. a
`preload` completed before any mount), a fresh mount seeds its `loaded` state
from it — the instance is born loaded and its first render is already the
resolved unit with the forwarded ref, with zero placeholder renders. -/
theorem mount_after_resolution {C : Type} (s : LoaderSys C) (c : C)
    (h : s.component = some c) :
    ((mountInst s).1.instances.get? (mountInst s).2
      = some { mounted := true, loaded := true, closures := 1 })
    ∧ ∀ (R P : Type) (ph : Option C) (r : R) (p : P),
        renderInstance s.component ph r p = RenderOutput.element c (some r) p := by
  have hsome : s.component.isSome = true := by rw [h]; rfl
  constructor
  · rw [mountInst_fst, mountInst_snd, hsome]
    have hget : ({ s with
        instances := s.instances ++ [{ mounted := true, loaded := true, closures := 0 }] } :
        LoaderSys C).instances.get? s.instances.length
        = some { mounted := true, loaded := true, closures := 0 } :=
      get?_concat_len s.instances _
    rw [runEffect_shape_some _ _ _ hget, if_pos rfl]
    dsimp only
    rw [get?_updateAt_self, get?_concat_len]
    rfl
  · intro R P ph r p
    rw [h]
    rfl

/-- Witness for C6 at a concrete input: preload + resolution to `7`, then a
first mount that is born loaded. -/
theorem mount_after_resolution_w :
    (run (C := Nat) true
        [LoaderEvent.preload, LoaderEvent.resolve (ModuleValue.direct 7)]).component = some 7
    ∧ ((mountInst (run (C := Nat) true
          [LoaderEvent.preload, LoaderEvent.resolve (ModuleValue.direct 7)])).1.instances.get?
        (mountInst (run (C := Nat) true
          [LoaderEvent.preload, LoaderEvent.resolve (ModuleValue.direct 7)])).2
        = some { mounted := true, loaded := true, closures := 1 }) :=
  ⟨by decide,
    (mount_after_resolution
      (run (C := Nat) true [LoaderEvent.preload, LoaderEvent.resolve (ModuleValue.direct 7)])
      7 (by decide)).1⟩

/-- Claim C7: the default placeholder renders nothing for a zero or missing
height; for a non-zero height it renders a box with exactly the supplied
width and height, containing the loading indicator exactly when
`showLoadingForImport` is set. -/
theorem default_placeholder_rendering {S : Type} (w : Option Nat) (h : Nat) (b : Bool)
    (st : Option S) :
    DefaultPlaceholder S w (some 0) b st = PlaceholderRender.empty
    ∧ DefaultPlaceholder S w none b st = PlaceholderRender.empty
    ∧ (h ≠ 0 → DefaultPlaceholder S w (some h) b st = PlaceholderRender.box w h b st) := by
  refine ⟨rfl, rfl, ?_⟩
  intro hne
  simp only [DefaultPlaceholder]
  rw [if_neg hne]

/-- Witness for C7 at a concrete input: width 100, height 200, with the
loading indicator requested. -/
theorem default_placeholder_rendering_w :
    ((200 : Nat) ≠ 0)
    ∧ DefaultPlaceholder Unit (some 100) (some 200) true none
      = PlaceholderRender.box (some 100) 200 true none :=
  ⟨by decide,
    (default_placeholder_rendering (S := Unit) (some 100) 200 true none).2.2 (by decide)⟩

/-- Claim C8: on every render all caller props are forwarded verbatim to
whatever gets rendered; the forwarded ref is attached exactly when the
rendered element is the resolved component, and the placeholder always
receives a `null` ref. -/
theorem render_props_ref_forwarding {C R P : Type} (component placeholder : Option C)
    (r : R) (p : P) :
    (∀ c ref q, renderInstance component placeholder r p = RenderOutput.element c ref q
      → q = p)
    ∧ (∀ c, component = some c
        → renderInstance component placeholder r p = RenderOutput.element c (some r) p)
    ∧ (component = none → ∀ q, placeholder = some q
        → renderInstance component placeholder r p = RenderOutput.element q none p)
    ∧ (component = none
        → ∀ c ref q, renderInstance component placeholder r p = RenderOutput.element c ref q
        → ref = none) := by
  refine ⟨?_, ?_, ?_, ?_⟩
  · intro c ref q hE
    cases hcomp : component with
    | some c0 =>
      rw [hcomp] at hE
      simp only [renderInstance] at hE
      injection hE with _ _ hq
      exact hq.symm
    | none =>
      rw [hcomp] at hE
      cases hph : placeholder with
      | some q0 =>
        rw [hph] at hE
        simp only [renderInstance] at hE
        injection hE with _ _ hq
        exact hq.symm
      | none =>
        rw [hph] at hE
        simp only [renderInstance] at hE
        exact RenderOutput.noConfusion hE
  · intro c hc
    rw [hc]
    rfl
  · intro hc q hq
    rw [hc, hq]
    rfl
  · intro hc c ref q hE
    rw [hc] at hE
    cases hph : placeholder with
    | some q0 =>
      rw [hph] at hE
      simp only [renderInstance] at hE
      injection hE with _ href _
      exact href.symm
    | none =>
      rw [hph] at hE
      simp only [renderInstance] at hE
      exact RenderOutput.noConfusion hE

/-- Witness for C8 at a concrete input: a resolved component gets the ref and
the props; an unresolved loader renders the placeholder with a `null` ref. -/
theorem render_props_ref_forwarding_w :
    ((some 5 : Option Nat) = some 5
      ∧ renderInstance (some 5 : Option Nat) (some 9) (3 : Nat) (4 : Nat)
        = RenderOutput.element 5 (some 3) 4)
    ∧ ((none : Option Nat) = none ∧ (some 9 : Option Nat) = some 9
      ∧ renderInstance (none : Option Nat) (some 9) (3 : Nat) (4 : Nat)
        = RenderOutput.element 9 none 4) :=
  ⟨⟨rfl, (render_props_ref_forwarding (some 5 : Option Nat) (some 9) 3 4).2.1 5 rfl⟩,
    ⟨rfl, rfl, (render_props_ref_forwarding (none : Option Nat) (some 9) 3 4).2.2.1 rfl 9 rfl⟩⟩

/-- Claim C9: `saveChartConfiguration` follows the begin/complete/fail
lifecycle — `SAVE_CHART_CONFIG_BEGIN` is dispatched before the HTTP request,
and exactly one of `SAVE_CHART_CONFIG_COMPLETE` (after dispatching the
updated dashboard metadata, on success) or `SAVE_CHART_CONFIG_FAIL` followed
by a danger toast (on failure) is dispatched. -/
theorem save_chart_config_lifecycle {CC GCC M ε : Type} (cc : Option CC) (gcc : Option GCC)
    (hr : Except ε M) :
    ((saveChartConfiguration cc gcc hr).1.take 2
        = [DashStep.dispatch (DashAction.saveChartConfigBegin cc gcc), DashStep.httpPut])
    ∧ ((saveChartConfiguration cc gcc hr).1.countP isCompleteStep
        + (saveChartConfiguration cc gcc hr).1.countP isFailStep = 1)
    ∧ (∀ m, hr = Except.ok m →
        (saveChartConfiguration cc gcc hr).1
          = [DashStep.dispatch (DashAction.saveChartConfigBegin cc gcc), DashStep.httpPut,
             DashStep.dispatch (DashAction.dashboardInfoChanged m),
             DashStep.dispatch (DashAction.saveChartConfigComplete cc gcc)]
        ∧ (saveChartConfiguration cc gcc hr).2 = Except.ok ())
    ∧ (∀ e, hr = Except.error e →
        (saveChartConfiguration cc gcc hr).1
          = [DashStep.dispatch (DashAction.saveChartConfigBegin cc gcc), DashStep.httpPut,
             DashStep.dispatch (DashAction.saveChartConfigFail cc gcc),
             DashStep.dispatch (DashAction.addDangerToast saveChartConfigFailMsg)]
        ∧ (saveChartConfiguration cc gcc hr).2 = Except.ok ()) := by
  cases hr with
  | ok m =>
    refine ⟨rfl, rfl, ?_, ?_⟩
    · intro m2 hm
      injection hm with hm
      rw [← hm]
      exact ⟨rfl, rfl⟩
    · intro e he
      exact Except.noConfusion he
  | error e =>
    refine ⟨rfl, rfl, ?_, ?_⟩
    · intro m hm
      exact Except.noConfusion hm
    · intro e2 he
      exact ⟨rfl, rfl⟩

/-- Witness for C9 at a concrete input: a failed request yields BEGIN, the
request, FAIL, and the danger toast, and the thunk still resolves. -/
theorem save_chart_config_lifecycle_w :
    ((Except.error 0 : Except Nat Nat) = Except.error 0)
    ∧ ((@saveChartConfiguration Nat Nat Nat Nat (some 1) (some 2)
          (Except.error 0)).1
        = [DashStep.dispatch (DashAction.saveChartConfigBegin (some 1) (some 2)),
           DashStep.httpPut,
           DashStep.dispatch (DashAction.saveChartConfigFail (some 1) (some 2)),
           DashStep.dispatch (DashAction.addDangerToast saveChartConfigFailMsg)]
      ∧ (@saveChartConfiguration Nat Nat Nat Nat (some 1) (some 2)
          (Except.error 0)).2 = Except.ok ()) :=
  ⟨rfl, (save_chart_config_lifecycle (some 1) (some 2)
      (Except.error 0 : Except Nat Nat)).2.2.2 0 rfl⟩

/-- Claim C10: on a failed request `saveChartConfiguration` swallows the
error (the thunk resolves normally after FAIL plus toast), whereas
`updateDashboardTheme`, `saveFilterBarOrientation` and
`saveCrossFiltersSetting` each dispatch their danger toast and then rethrow
the error — the four persistence thunks do not share a uniform error
contract. -/
theorem persistence_error_contracts {CC GCC M ε : Type} (cc : Option CC) (gcc : Option GCC)
    (themeId : Option Nat) (o : FilterBarOrientation) (b : Bool)
    (getErrTxt : ε → String) (e : ε) :
    ((@saveChartConfiguration CC GCC M ε cc gcc (Except.error e)).2 = Except.ok ()
      ∧ (@saveChartConfiguration CC GCC M ε cc gcc (Except.error e)).1.countP isToastStep = 1)
    ∧ ((@updateDashboardTheme CC GCC M ε themeId getErrTxt
          (Except.error e)).2 = Except.error e
      ∧ (@updateDashboardTheme CC GCC M ε themeId getErrTxt
          (Except.error e)).1
        = [DashStep.httpPut, DashStep.dispatch (DashAction.addDangerToast (getErrTxt e))])
    ∧ ((@saveFilterBarOrientation CC GCC M ε o getErrTxt
          (Except.error e)).2 = Except.error e
      ∧ (@saveFilterBarOrientation CC GCC M ε o getErrTxt
          (Except.error e)).1
        = [DashStep.httpPut, DashStep.dispatch (DashAction.addDangerToast (getErrTxt e))])
    ∧ ((@saveCrossFiltersSetting CC GCC M ε b getErrTxt
          (Except.error e)).2 = Except.error e
      ∧ (@saveCrossFiltersSetting CC GCC M ε b getErrTxt
          (Except.error e)).1
        = [DashStep.httpPut, DashStep.dispatch (DashAction.addDangerToast (getErrTxt e))]) :=
  ⟨⟨rfl, rfl⟩, ⟨rfl, rfl⟩, ⟨rfl, rfl⟩, ⟨rfl, rfl⟩⟩

end Spec2Proof
